import Mathlib

/-!
Shallow embedding of the SlackBot repository core (src/agent.py, src/app.py):
the document store, relevance-selector parsing, context assembly and the
per-user conversation session logic, together with theorems checking the
specification's claims against this embedding.

Python dicts are modelled as insertion-ordered association lists
(`dictInsert` replaces in place on key collision, appends otherwise),
matching CPython dict semantics that `DocumentIndex.documents` and
`conversations` rely on.
-/

namespace SlackBot

/-- A corpus document as loaded from a JSON file.  Optional JSON keys are
`Option String`; `keywords` defaults to the empty list (`doc.get('keywords', [])`). -/
structure Doc where
  title : Option String := none
  article : Option String := none
  category : Option String := none
  short_description : Option String := none
  claude_summary : Option String := none
  keywords : List String := []
  id : String := ""
  filepath : String := ""
deriving DecidableEq, Inhabited

/-- Association-list lookup, first match wins (Python `dict[key]` / `in`). -/
def dictLookup {α : Type} (l : List (String × α)) (k : String) : Option α :=
  match l with
  | [] => none
  | (k', v') :: rest => if k' = k then some v' else dictLookup rest k

/-- Association-list insert with CPython dict semantics: an existing key keeps
its position and gets the new value; a new key is appended at the end. -/
def dictInsert {α : Type} (l : List (String × α)) (k : String) (v : α) :
    List (String × α) :=
  match l with
  | [] => [(k, v)]
  | (k', v') :: rest =>
    if k' = k then (k, v) :: rest else (k', v') :: dictInsert rest k v

/-- State of `agent.DocumentIndex`: the id-keyed corpus, the `loaded` flag and
the memoized summaries listing (`_summaries_cache`, empty string = unset). -/
structure DocumentIndex where
  documents : List (String × Doc) := []
  loaded : Bool := false
  summariesCache : String := ""
deriving DecidableEq, Inhabited

/-- A directory as seen by `load_from_directory`: `none` when the path does not
exist, otherwise the `*.json` files in glob order, each carrying its filename
stem and its parse outcome (`none` = `json.load` raised, the file is skipped). -/
def Directory : Type := Option (List (String × Option Doc))

/-- Body of the per-file loop of `load_from_directory`: a file whose parse
raised is skipped; a parsed document gets `id` (and `filepath`, abbreviated
here to the file name since the directory prefix is read nowhere) and is
stored under its filename stem. -/
def loadStep (acc : List (String × Doc)) (file : String × Option Doc) :
    List (String × Doc) :=
  match file.2 with
  | none => acc
  | some d => dictInsert acc file.1 { d with id := file.1, filepath := file.1 ++ ".json" }

/-- `DocumentIndex.load_from_directory` (src/agent.py lines 27-52): early
return on a missing directory; otherwise each successfully parsed file is
stored under its filename stem with `id` set, then `loaded` is set and the
summaries cache is reset. -/
def load_from_directory (st : DocumentIndex) (dir : Directory) : DocumentIndex :=
  match dir with
  | none => st
  | some files =>
    { documents := files.foldl loadStep st.documents,
      loaded := true, summariesCache := "" }

/-- One entry of the summaries listing for document number `i` (1-based). -/
def summaryEntry (i : Nat) (doc_id : String) (doc : Doc) : String :=
  let title := doc.title.getD "Untitled"
  let summary := doc.claude_summary.getD (doc.short_description.getD "")
  let category := doc.category.getD ""
  let entry := "[" ++ toString i ++ "] " ++ doc_id ++ "\n" ++
    "    Title: " ++ title ++ "\n" ++
    "    Category: " ++ category ++ "\n" ++
    "    Summary: " ++ summary ++ "\n"
  if doc.keywords ≠ [] then
    entry ++ "    Keywords: " ++ String.intercalate ", " doc.keywords ++ "\n"
  else entry

/-- The listing lines for `enumerate(self.documents.items(), 1)` starting at `i`. -/
def summaryLines (i : Nat) : List (String × Doc) → List String
  | [] => []
  | (doc_id, doc) :: rest => summaryEntry i doc_id doc :: summaryLines (i + 1) rest

/-- `DocumentIndex.get_summaries_for_selection` (src/agent.py lines 54-76):
returns the cached listing when the cache is non-empty (Python truthiness),
otherwise recomputes it from the corpus and stores it.  Returns the listing
together with the updated index state. -/
def get_summaries_for_selection (st : DocumentIndex) : String × DocumentIndex :=
  if st.summariesCache ≠ "" then (st.summariesCache, st)
  else
    let s := String.intercalate "\n" (summaryLines 1 st.documents)
    (s, { st with summariesCache := s })

/-- `DocumentIndex.get_documents_by_ids` (src/agent.py lines 82-83):
`[self.documents[d] for d in doc_ids if d in self.documents]`. -/
def get_documents_by_ids (st : DocumentIndex) (doc_ids : List String) : List Doc :=
  doc_ids.filterMap (fun d_id => dictLookup st.documents d_id)

/-! ### Python string primitives (ASCII model, kernel-computable) -/

/-- Python `str.strip()`: drop whitespace from both ends. -/
def pyStrip (s : String) : String :=
  ⟨((s.data.dropWhile Char.isWhitespace).reverse.dropWhile Char.isWhitespace).reverse⟩

/-- Python `str.upper()` (ASCII model). -/
def pyUpper (s : String) : String := ⟨s.data.map Char.toUpper⟩

/-- Split a character list at every occurrence of `c` (Python `str.split(c)`:
`""` splits to `[""]`, separators at the ends produce empty fields). -/
def splitCharAux (c : Char) : List Char → List (List Char)
  | [] => [[]]
  | x :: xs =>
    match splitCharAux c xs with
    | [] => [[]]
    | y :: ys => if x = c then [] :: y :: ys else (x :: y) :: ys

/-- Python `str.split('\n')`. -/
def pySplitNL (s : String) : List String := (splitCharAux '\n' s.data).map (fun l => ⟨l⟩)

/-! ### Relevance selector -/

/-- Outcome of `select_relevant_docs`: the selected ids and whether the LLM
call was issued (`client.messages.create` reached). -/
structure SelectResult where
  ids : List String
  llmCalled : Bool
deriving DecidableEq

/-- `select_relevant_docs` (src/agent.py lines 94-177).  The LLM transport is
abstracted by `response`: `none` means `client.messages.create` raised (the
`except` path returns `[]`), `some raw` is the returned `response.content[0]
.text`.  The guard, the `NONE` check, line splitting, trimming, filtering to
known ids and the final `[:max_docs]` truncation follow the source. -/
def select_relevant_docs (st : DocumentIndex) (response : Option String)
    (max_docs : Nat) : SelectResult :=
  if !st.loaded || st.documents.length == 0 then ⟨[], false⟩
  else
    match response with
    | none => ⟨[], true⟩
    | some raw =>
      let response_text := pyStrip raw
      if pyUpper response_text = "NONE" then ⟨[], true⟩
      else
        let doc_ids := ((pySplitNL response_text).map pyStrip).filter (fun l => l ≠ "")
        let valid_ids := doc_ids.filter (fun d_id => (dictLookup st.documents d_id).isSome)
        ⟨valid_ids.take max_docs, true⟩

/-- `get_documents` (src/agent.py lines 180-181). -/
def get_documents (st : DocumentIndex) (doc_ids : List String) : List Doc :=
  get_documents_by_ids st doc_ids

/-- `retrieve_documents` (src/agent.py lines 184-188). -/
def retrieve_documents (st : DocumentIndex) (response : Option String)
    (max_docs : Nat) : List Doc :=
  let doc_ids := (select_relevant_docs st response max_docs).ids
  if doc_ids = [] then [] else get_documents st doc_ids

/-! ### Context assembler -/

/-- One block of `format_context_for_claude` for document number `i` (1-based). -/
def contextBlock (i : Nat) (doc : Doc) : String :=
  "--- Document " ++ toString i ++ ": " ++ doc.title.getD "Untitled" ++ " ---\n" ++
  "Category: " ++ doc.category.getD "" ++ "\n" ++
  "Content:\n" ++ doc.article.getD "" ++ "\n"

/-- The `context_parts` list built by the `for i, doc in enumerate(documents, 1)` loop. -/
def contextParts (i : Nat) : List Doc → List String
  | [] => []
  | doc :: rest => contextBlock i doc :: contextParts (i + 1) rest

/-- `format_context_for_claude` (src/agent.py lines 191-206). -/
def format_context_for_claude (documents : List Doc) : String :=
  if documents = [] then ""
  else String.intercalate "\n\n" (contextParts 1 documents)

/-! ### Conversation sessions and `ask_claude` (src/app.py) -/

/-- A message role, `"user"` or `"assistant"`. -/
inductive Role where
  | user
  | assistant
deriving DecidableEq

/-- One turn of a conversation: `{"role": ..., "content": ...}`. -/
structure Turn where
  role : Role
  content : String
deriving DecidableEq

/-- The global `conversations` dict: `user_id -> list of turns`. -/
def Conversations : Type := List (String × List Turn)

/-- Python `list[-10:]`: the last `n` elements. -/
def takeLast {α : Type} (n : Nat) (l : List α) : List α := l.drop (l.length - n)

/-- The bare system prompt `SYSTEM_PROMPT` (src/app.py lines 33-40). -/
def SYSTEM_PROMPT : String :=
  "You an expert AI assistant in a Slack workspace.\n\nInstructions:\n- Focus on answering the user's most recent message\n- Use prior messages in the conversation as context\n- Be helpful but concise\n- If the user's question is unclear, ask for clarification\n"

/-- `SYSTEM_PROMPT_WITH_CONTEXT.format(context=context)` (src/app.py lines 42-56). -/
def SYSTEM_PROMPT_WITH_CONTEXT (context : String) : String :=
  "You an expert AI assistant in a Slack workspace.\n\nInstructions:\n- Focus on answering the user's most recent message\n- Use prior messages in the conversation as context\n- Be helpful but concise\n- If the user's question is unclear, ask for clarification\n\nYou have access to the following help center documentation:\n\n" ++
  context ++
  "\n\nUse this documentation to provide accurate answers. If you used the documentation, cite the title of the articles.\nIf the documentation doesn't cover the question, ignore it\n"

/-- `ask_claude` (src/app.py lines 61-99).  The two LLM transports are
abstracted: `selectorResponse` feeds `retrieve_documents` (the Haiku selector
call), and `api` is the final `claude.messages.create` outcome — `.ok reply`
on success, `.error e` when it raises with message `e`.  Returns the updated
`conversations` dict and the string handed back to the Slack handler. -/
def ask_claude (st : DocumentIndex) (convs : Conversations)
    (user_id message : String) (selectorResponse : Option String)
    (api : Except String String) : Conversations × String :=
  let convs0 := if (dictLookup convs user_id).isSome then convs
    else dictInsert convs user_id []
  let documents := retrieve_documents st selectorResponse 3
  let _system_prompt :=
    if documents ≠ [] then
      SYSTEM_PROMPT_WITH_CONTEXT (format_context_for_claude documents)
    else SYSTEM_PROMPT
  let history := (dictLookup convs0 user_id).getD []
  let history := history ++ [Turn.mk Role.user message]
  let history := takeLast 10 history
  let convs1 := dictInsert convs0 user_id history
  match api with
  | .ok reply =>
    (dictInsert convs1 user_id (history ++ [Turn.mk Role.assistant reply]), reply)
  | .error e => (convs1, "API error: " ++ e)

/-- The session stored for `user_id` (empty when absent, as after creation). -/
def sessionOf (convs : Conversations) (user_id : String) : List Turn :=
  (dictLookup convs user_id).getD []

/-- A small sample document used by concrete witness instances. -/
def sampleDoc (t : String) : Doc :=
  { title := some t, article := some ("About " ++ t), category := some "Help", id := t }

/-- A loaded three-document index used by concrete witness instances. -/
def sampleIndex : DocumentIndex :=
  { documents := [("a", sampleDoc "a"), ("b", sampleDoc "b"), ("c", sampleDoc "c")],
    loaded := true, summariesCache := "" }

/-! ### Specification-side definitions (worded from spec.md, for refinement
theorems that compare them with the source embedding) -/

/-- Selection-response parsing policy as worded in the spec (section 4.2):
trim whitespace; a trimmed response that case-insensitively equals NONE is the
empty selection; otherwise split on newlines, trim each line, drop empty
lines, keep only lines matching a known document id, in response order. -/
def selectionPolicy_spec (known : String → Bool) (response_text : String) : List String :=
  let trimmed := pyStrip response_text
  if pyUpper trimmed = "NONE" then []
  else (((pySplitNL trimmed).map pyStrip).filter (fun l => l ≠ "")).filter known

/-- Lookup contract as worded in the spec (section 4.1): the requested ids are
filtered to those present in the index and each is mapped to its stored
document, preserving the order of the requested ids; unknown ids are omitted. -/
def lookup_spec (docs : List (String × Doc)) (ids : List String) : List Doc :=
  (ids.filter (fun i => (dictLookup docs i).isSome)).map
    (fun i => (dictLookup docs i).getD default)

/-- One step of the scan for the last successfully parsed document with stem
`i`: a file with that stem replaces the accumulator when its parse succeeded
and is skipped otherwise; other stems leave the accumulator alone. -/
def lastParsedUpd (i : String) (a : Option Doc) (file : String × Option Doc) : Option Doc :=
  if file.1 = i then (match file.2 with | some d => some d | none => a) else a

/-- Last successfully parsed document among the files of a directory whose
stem is `i`, with accumulator `a` standing for the documents seen so far
(auxiliary form used for induction). -/
def lastParsedAux (i : String) : Option Doc → List (String × Option Doc) → Option Doc
  | a, [] => a
  | a, f :: rest => lastParsedAux i (lastParsedUpd i a f) rest

/-- Last successfully parsed document with stem `i` in a directory listing
(`none` when no file with that stem parses). -/
def lastParsedDoc (files : List (String × Option Doc)) (i : String) : Option Doc :=
  lastParsedAux i none files

/-! ### Helper lemmas on the dictionary model -/

theorem dictLookup_dictInsert_self {α : Type} (l : List (String × α)) (k : String) (v : α) :
    dictLookup (dictInsert l k v) k = some v := by
  induction l with
  | nil => simp [dictInsert, dictLookup]
  | cons hd tl ih =>
    obtain ⟨k', v'⟩ := hd
    by_cases h : k' = k
    · simp [dictInsert, dictLookup, h]
    · simp [dictInsert, dictLookup, h, ih]

theorem dictLookup_dictInsert_ne {α : Type} (l : List (String × α)) (k i : String) (v : α)
    (h : i ≠ k) : dictLookup (dictInsert l k v) i = dictLookup l i := by
  induction l with
  | nil => simp [dictInsert, dictLookup, Ne.symm h]
  | cons hd tl ih =>
    obtain ⟨k', v'⟩ := hd
    by_cases hk : k' = k
    · subst hk
      simp [dictInsert, dictLookup, Ne.symm h]
    · by_cases hi : k' = i <;> simp [dictInsert, dictLookup, hk, hi, ih, h]

theorem takeLast_length_le {α : Type} (n : Nat) (l : List α) :
    (takeLast n l).length ≤ n := by
  simp only [takeLast, List.length_drop]
  omega

/-- Characterization of one `ask_claude` call on the session of the calling
user: the stored session becomes the last-10 truncation of the previous
session with the user turn appended, extended by the assistant turn exactly
when the API call succeeds; the returned string is the reply on success and
the labelled error text on failure. -/
theorem ask_claude_session_eq (st : DocumentIndex) (convs : Conversations)
    (user_id message : String) (sel : Option String) (api : Except String String) :
    sessionOf (ask_claude st convs user_id message sel api).1 user_id =
      takeLast 10 (sessionOf convs user_id ++ [Turn.mk Role.user message]) ++
        (match api with
         | .ok reply => [Turn.mk Role.assistant reply]
         | .error _ => []) ∧
    (ask_claude st convs user_id message sel api).2 =
      (match api with
       | .ok reply => reply
       | .error e => "API error: " ++ e) := by
  have hbase : (dictLookup (if (dictLookup convs user_id).isSome then convs
      else dictInsert convs user_id []) user_id).getD [] = sessionOf convs user_id := by
    by_cases h : (dictLookup convs user_id).isSome
    · simp [sessionOf, h]
    · rw [Option.not_isSome_iff_eq_none] at h
      simp [sessionOf, h, dictLookup_dictInsert_self]
  cases api with
  | ok reply =>
    refine ⟨?_, rfl⟩
    simp only [ask_claude, sessionOf, dictLookup_dictInsert_self, Option.getD_some, hbase]
  | error e =>
    refine ⟨?_, rfl⟩
    simp only [ask_claude, sessionOf, dictLookup_dictInsert_self, Option.getD_some, hbase,
      List.append_nil]

end SlackBot

namespace SlackBot

/-- C1 counterexample: starting from no history, six successful calls for one
user append 12 total turns (6 user, 6 assistant), after which the session
holds 11 turns, not 10 — the assistant-turn append at src/app.py line 94 is
not followed by the truncation at line 82. -/
theorem C1_counterexample :
    (sessionOf
      ([("m1", "r1"), ("m2", "r2"), ("m3", "r3"), ("m4", "r4"), ("m5", "r5"),
        ("m6", "r6")].foldl
        (fun convs p => (ask_claude ⟨[], false, ""⟩ convs "u" p.1 none (.ok p.2)).1)
        ([] : Conversations)) "u").length = 11 := by decide

/-- C1 amended: truncation to the 10 most recent turns happens after the
user-turn append only; the assistant turn is appended afterwards with no
further truncation.  After any single `ask_claude` call the session equals the
last-10 truncation of the previous session plus the user turn, extended by the
assistant turn on success, and hence holds at most 11 turns (appending 12
total turns over six successful calls leaves the most recent 11). -/
theorem C1_amended (st : DocumentIndex) (convs : Conversations)
    (user_id message : String) (sel : Option String) (api : Except String String) :
    sessionOf (ask_claude st convs user_id message sel api).1 user_id =
      takeLast 10 (sessionOf convs user_id ++ [Turn.mk Role.user message]) ++
        (match api with
         | .ok reply => [Turn.mk Role.assistant reply]
         | .error _ => []) ∧
    (sessionOf (ask_claude st convs user_id message sel api).1 user_id).length ≤ 11 := by
  obtain ⟨h1, _⟩ := ask_claude_session_eq st convs user_id message sel api
  refine ⟨h1, ?_⟩
  rw [h1, List.length_append]
  have := takeLast_length_le 10 (sessionOf convs user_id ++ [Turn.mk Role.user message])
  cases api <;> simp only [List.length_cons, List.length_nil] <;> omega

/-- C2 counterexample: with an empty prior session, a failed final LLM call
leaves the session holding the appended user turn — the session after the
call differs from the session before it, contradicting the claimed equality
(the error string itself is returned as claimed). -/
theorem C2_counterexample :
    sessionOf (ask_claude ⟨[], false, ""⟩ ([] : Conversations) "u" "hi" none
        (.error "boom")).1 "u" = [Turn.mk Role.user "hi"] ∧
    sessionOf ([] : Conversations) "u" = [] ∧
    sessionOf (ask_claude ⟨[], false, ""⟩ ([] : Conversations) "u" "hi" none
        (.error "boom")).1 "u" ≠ sessionOf ([] : Conversations) "u" ∧
    (ask_claude ⟨[], false, ""⟩ ([] : Conversations) "u" "hi" none (.error "boom")).2 =
      "API error: boom" := by decide

/-- C2 amended: when the final LLM call fails, no assistant turn is appended —
the session equals the last-10 truncation of the prior session with the user
turn already appended (the user-turn append at src/app.py line 79 precedes the
try block and survives the failure) — and the caller receives the labelled
string `"API error: " ++ e` instead of an exception. -/
theorem C2_amended (st : DocumentIndex) (convs : Conversations)
    (user_id message e : String) (sel : Option String) :
    sessionOf (ask_claude st convs user_id message sel (.error e)).1 user_id =
      takeLast 10 (sessionOf convs user_id ++ [Turn.mk Role.user message]) ∧
    (ask_claude st convs user_id message sel (.error e)).2 = "API error: " ++ e := by
  obtain ⟨h1, h2⟩ := ask_claude_session_eq st convs user_id message sel (.error e)
  exact ⟨by simpa using h1, h2⟩

/-- C3 counterexample: on an index populated and memoized by a previous
generation, calling `load_from_directory` on a missing directory keeps `loaded
= true`, keeps the stale summaries cache, and keeps the old documents — the
claim says the flag is left false and the cached listing is reset. -/
theorem C3_counterexample :
    (load_from_directory ⟨[("a", sampleDoc "a")], true, "stale listing"⟩ none).loaded = true ∧
    (load_from_directory ⟨[("a", sampleDoc "a")], true, "stale listing"⟩ none).summariesCache
      = "stale listing" ∧
    (load_from_directory ⟨[("a", sampleDoc "a")], true, "stale listing"⟩ none).documents ≠ [] := by
  refine ⟨rfl, rfl, by decide⟩

/-- C3 amended: on a missing directory, `load_from_directory` returns early and
leaves the entire store state unchanged — documents, `loaded` flag and cached
summaries listing all keep their prior values.  In particular, on a fresh
store the call leaves the store empty, the flag false and the cache empty. -/
theorem C3_amended (st : DocumentIndex) :
    load_from_directory st none = st ∧
    (load_from_directory ⟨[], false, ""⟩ none).documents = [] ∧
    (load_from_directory ⟨[], false, ""⟩ none).loaded = false ∧
    (load_from_directory ⟨[], false, ""⟩ none).summariesCache = "" :=
  ⟨rfl, rfl, rfl, rfl⟩

/-- C6: when the store is not loaded or holds zero documents,
`select_relevant_docs` returns the empty selection and the LLM transport is
never reached (`llmCalled = false`). -/
theorem C6_select_fails_fast (st : DocumentIndex) (response : Option String)
    (max_docs : Nat) (h : st.loaded = false ∨ st.documents = []) :
    select_relevant_docs st response max_docs = ⟨[], false⟩ := by
  rcases h with h | h <;> simp [select_relevant_docs, h]

/-- C6 witness: a fresh store is not loaded, and a select call on it returns
the empty selection without an LLM call. -/
theorem C6_witness :
    (⟨[], false, ""⟩ : DocumentIndex).loaded = false ∧
    select_relevant_docs ⟨[], false, ""⟩ (some "a\nb") 3 = ⟨[], false⟩ :=
  ⟨rfl, C6_select_fails_fast ⟨[], false, ""⟩ (some "a\nb") 3 (Or.inl rfl)⟩

/-- C7: within one load generation, two consecutive calls to
`get_summaries_for_selection` return byte-identical strings: the second call
on the state produced by the first returns exactly the first string. -/
theorem C7_summaries_stable (st : DocumentIndex) :
    (get_summaries_for_selection (get_summaries_for_selection st).2).1 =
      (get_summaries_for_selection st).1 := by
  by_cases h : st.summariesCache = ""
  · simp only [get_summaries_for_selection, h]
    by_cases hL : String.intercalate "\n" (summaryLines 1 st.documents) = "" <;>
      simp [hL]
  · simp [get_summaries_for_selection, h]

/-- C4: the selection never exceeds `max_docs` entries, and on the parsing
path (loaded non-empty store, response not NONE) the `max_docs` truncation is
applied to the already-filtered list of known ids, never to the raw lines. -/
theorem C4_truncation_after_filter (st : DocumentIndex) (response : Option String)
    (max_docs : Nat) :
    (select_relevant_docs st response max_docs).ids.length ≤ max_docs ∧
    (∀ raw, response = some raw → st.loaded = true → st.documents ≠ [] →
      pyUpper (pyStrip raw) ≠ "NONE" →
      (select_relevant_docs st response max_docs).ids =
        ((((pySplitNL (pyStrip raw)).map pyStrip).filter (fun l => l ≠ "")).filter
          (fun d_id => (dictLookup st.documents d_id).isSome)).take max_docs) := by
  constructor
  · unfold select_relevant_docs
    split
    · simp
    · cases response with
      | none => simp
      | some raw =>
        by_cases h : pyUpper (pyStrip raw) = "NONE"
        · simp [h]
        · simp [h]
  · intro raw hr hl hne hNone
    subst hr
    simp [select_relevant_docs, hl, hNone, List.length_eq_zero, hne]

/-- C4 witness: with `max_docs = 2` and a response listing the valid ids a, b,
c and the unknown id x, the selection is exactly the first two valid ids
(truncating before filtering would instead drop b). -/
theorem C4_witness :
    (select_relevant_docs sampleIndex (some "a\nx\nb\nc") 2).ids.length ≤ 2 ∧
    (select_relevant_docs sampleIndex (some "a\nx\nb\nc") 2).ids = ["a", "b"] := by
  obtain ⟨h1, h2⟩ := C4_truncation_after_filter sampleIndex (some "a\nx\nb\nc") 2
  refine ⟨h1, ?_⟩
  rw [h2 "a\nx\nb\nc" rfl rfl (by decide) (by decide)]
  decide

/-- C5: on a loaded non-empty store, the selection equals the spec-worded
parsing policy (trim; case-insensitive NONE means empty; split, trim, drop
empties, keep known ids in order) truncated to `max_docs`. -/
theorem C5_parsing_policy (st : DocumentIndex) (raw : String) (max_docs : Nat)
    (hl : st.loaded = true) (hne : st.documents ≠ []) :
    (select_relevant_docs st (some raw) max_docs).ids =
      (selectionPolicy_spec (fun d_id => (dictLookup st.documents d_id).isSome) raw).take
        max_docs := by
  unfold selectionPolicy_spec
  by_cases h : pyUpper (pyStrip raw) = "NONE" <;>
    simp [select_relevant_docs, hl, List.length_eq_zero, hne, h]

/-- C5 witness: on the sample index, the response " nOnE \n" (odd casing and
whitespace) parses to the empty selection, matching the spec policy. -/
theorem C5_witness :
    (select_relevant_docs sampleIndex (some " nOnE \n") 3).ids =
      (selectionPolicy_spec (fun d_id => (dictLookup sampleIndex.documents d_id).isSome)
        " nOnE \n").take 3 ∧
    (select_relevant_docs sampleIndex (some " nOnE \n") 3).ids = [] := by
  have h := C5_parsing_policy sampleIndex " nOnE \n" 3 rfl (by decide)
  exact ⟨h, by rw [h]; decide⟩

/-- C8: `get_documents_by_ids` returns exactly the documents whose id is
present in the index, in the order the ids were requested, silently omitting
absent ids — it coincides with the spec-worded `lookup_spec`. -/
theorem C8_lookup_order (st : DocumentIndex) (ids : List String) :
    get_documents_by_ids st ids = lookup_spec st.documents ids := by
  induction ids with
  | nil => rfl
  | cons i rest ih =>
    unfold get_documents_by_ids lookup_spec at *
    cases h : dictLookup st.documents i with
    | none => simp [List.filterMap_cons, List.filter_cons, h, ih]
    | some d => simp [List.filterMap_cons, List.filter_cons, h, ih]

end SlackBot

namespace SlackBot

theorem contextParts_eq (docs : List Doc) :
    ∀ i, contextParts i docs =
      (List.range docs.length).map
        (fun k => contextBlock (i + k) (docs.getD k default)) := by
  induction docs with
  | nil => intro i; rfl
  | cons d rest ih =>
    intro i
    simp only [contextParts, List.length_cons, List.range_succ_eq_map, List.map_cons,
      List.map_map]
    congr 1
    rw [ih (i + 1)]
    refine List.map_congr_left ?_
    intro k _
    have hik : i + 1 + k = i + (k + 1) := by omega
    simp [Function.comp, List.getD, hik]

/-- C9: the context assembler is pure formatting: the empty document sequence
yields the empty string; a single document yields exactly one block with index
1 and no separator; in general the output is the blank-line-separated join of
one block per document, indexed from 1 in the given order; and on a concrete
document the block literally contains index, title, category and article. -/
theorem C9_assembler :
    format_context_for_claude [] = "" ∧
    (∀ d : Doc, format_context_for_claude [d] = contextBlock 1 d) ∧
    (∀ docs : List Doc, format_context_for_claude docs =
      String.intercalate "\n\n"
        ((List.range docs.length).map
          (fun k => contextBlock (1 + k) (docs.getD k default)))) ∧
    format_context_for_claude [sampleDoc "a"] =
      "--- Document 1: a ---\nCategory: Help\nContent:\nAbout a\n" := by
  refine ⟨rfl, fun d => rfl, fun docs => ?_, by decide⟩
  by_cases h : docs = []
  · subst h; rfl
  · simp only [format_context_for_claude, h, if_neg, reduceIte]
    rw [contextParts_eq docs 1]

theorem lastParsedAux_or (i : String) (files : List (String × Option Doc)) :
    ∀ a, lastParsedAux i a files = (lastParsedDoc files i).or a := by
  induction files with
  | nil => intro a; rfl
  | cons f rest ih =>
    intro a
    have h1 : lastParsedAux i a (f :: rest) =
        lastParsedAux i (lastParsedUpd i a f) rest := rfl
    have h2 : lastParsedDoc (f :: rest) i =
        lastParsedAux i (lastParsedUpd i none f) rest := rfl
    rw [h1, h2, ih, ih]
    cases hD : lastParsedDoc rest i with
    | some d => rfl
    | none =>
      obtain ⟨stem, p⟩ := f
      by_cases hs : stem = i
      · cases p <;> simp [lastParsedUpd, hs, Option.or]
      · simp [lastParsedUpd, hs, Option.or]

theorem loadFold_lookup (i : String) :
    ∀ (files : List (String × Option Doc)) (acc : List (String × Doc)),
      dictLookup (files.foldl loadStep acc) i =
        (match lastParsedDoc files i with
         | some d => some { d with id := i, filepath := i ++ ".json" }
         | none => dictLookup acc i) := by
  intro files
  induction files with
  | nil => intro acc; rfl
  | cons f rest ih =>
    intro acc
    obtain ⟨stem, p⟩ := f
    rw [List.foldl_cons, ih (loadStep acc (stem, p))]
    have hD : lastParsedDoc ((stem, p) :: rest) i =
        (lastParsedDoc rest i).or (lastParsedUpd i none (stem, p)) := by
      have h2 : lastParsedDoc ((stem, p) :: rest) i =
          lastParsedAux i (lastParsedUpd i none (stem, p)) rest := rfl
      rw [h2, lastParsedAux_or]
    rw [hD]
    cases hrest : lastParsedDoc rest i with
    | some d => rfl
    | none =>
      by_cases hs : stem = i
      · subst hs
        cases p with
        | none => simp [loadStep, lastParsedUpd, Option.or]
        | some d => simp [loadStep, lastParsedUpd, Option.or, dictLookup_dictInsert_self]
      · cases p with
        | none => simp [loadStep, lastParsedUpd, hs, Option.or]
        | some d =>
          simp [loadStep, lastParsedUpd, hs, Option.or,
            dictLookup_dictInsert_ne _ _ _ _ (Ne.symm hs)]

/-- C10: loading an existing directory merges it into the corpus: for every
id, the entry afterwards is the last successfully parsed file with that stem
(with `id` set — replacement on collision) when one exists, and otherwise is
exactly the entry from before the call; consequently every id present before
is still present afterwards. -/
theorem C10_load_merges (st : DocumentIndex) (files : List (String × Option Doc))
    (i : String) :
    dictLookup (load_from_directory st (some files)).documents i =
      (match lastParsedDoc files i with
       | some d => some { d with id := i, filepath := i ++ ".json" }
       | none => dictLookup st.documents i) ∧
    ((dictLookup st.documents i).isSome →
      (dictLookup (load_from_directory st (some files)).documents i).isSome) := by
  have h : dictLookup (load_from_directory st (some files)).documents i =
      (match lastParsedDoc files i with
       | some d => some { d with id := i, filepath := i ++ ".json" }
       | none => dictLookup st.documents i) := loadFold_lookup i files st.documents
  refine ⟨h, fun hs => ?_⟩
  rw [h]
  cases lastParsedDoc files i with
  | some d => rfl
  | none => exact hs

/-- C10 witness: loading a directory with a new document b and one unparsable
file over an index holding the document a keeps a present and untouched. -/
theorem C10_witness :
    dictLookup (load_from_directory ⟨[("a", sampleDoc "a")], true, ""⟩
        (some [("b", some (sampleDoc "b")), ("bad", none)])).documents "a" =
      some (sampleDoc "a") ∧
    (dictLookup (load_from_directory ⟨[("a", sampleDoc "a")], true, ""⟩
        (some [("b", some (sampleDoc "b")), ("bad", none)])).documents "a").isSome := by
  have h := C10_load_merges ⟨[("a", sampleDoc "a")], true, ""⟩
      [("b", some (sampleDoc "b")), ("bad", none)] "a"
  refine ⟨?_, h.2 (by decide)⟩
  rw [h.1]
  decide

end SlackBot
